import Mathlib

/-!
# Verification of the Agentik discovery / parallel-audit pipeline

A shallow embedding, in Lean 4, of the core algorithms of the repository:

* `scripts/discover.py` — domain normalization (`normalize_domain`),
  deduplication (`unique_sorted`), exponential backoff (`backoff_delays`),
  and the two search providers (`GoogleCSEProvider.query`,
  `DuckDuckGoProvider.query`) with their quota counters and retry loops,
  plus the ordering of the `main` pipeline;
* `scripts/run_parallel.py` — the per-task audit runner (`run_lighthouse`),
  the process-tree termination algorithm (`kill_chrome_tree`), and the
  live-process registry (`CHROME_PIDS`).

Python strings are embedded as `List Char` (wrapped in `String` at the
API boundary); Python floats, whose only operations here are `* 2.0` and
`min` on exactly representable values, are embedded as `ℚ`; network
responses and process events, which the code treats as opaque input, are
supplied as explicit oracle values.
-/

/-! ## Python string built-ins -/

/-- The whitespace set of Python's default `str.strip()` (ASCII part). -/
def pyIsSpace (c : Char) : Bool :=
  c = ' ' || c = '\t' || c = '\n' || c = '\r' || c = '\x0b' || c = '\x0c'

/-- Python `str.strip()`: drop leading and trailing whitespace. -/
def pyStrip (l : List Char) : List Char :=
  ((l.dropWhile pyIsSpace).reverse.dropWhile pyIsSpace).reverse

/-- Scan for the first occurrence of `"//"`; when found, return the suffix
after it. -/
def dropThroughSS : List Char → Option (List Char)
  | [] => none
  | c :: rest =>
    if c = '/' ∧ rest.head? = some '/' then some rest.tail else dropThroughSS rest

/-- Python `s.split("//", 1)[-1]`: everything after the first `"//"`, or the
whole string when `"//"` does not occur. -/
def pySplitSSLast (l : List Char) : List Char :=
  (dropThroughSS l).getD l

/-- Python `s[:n]` on an embedded string. -/
def strTake (s : String) (n : ℕ) : String :=
  ⟨s.data.take n⟩

/-! ## `normalize_domain` (scripts/discover.py, lines 67–75) -/

/-- The final step of `normalize_domain`: `if d.startswith("www."): d = d[4:]`. -/
def stripWww (d : List Char) : List Char :=
  if d.take 4 = ['w', 'w', 'w', '.'] then d.drop 4 else d

/-- The body of `normalize_domain` on the character list of the input:
strip; drop scheme (`split("//", 1)[-1]`); keep host (`split("/", 1)[0]`);
drop port (`split(":", 1)[0]`); lower-case (`Char.toLower` is exactly
Python's ASCII case mapping); drop one leading `"www."`. -/
def normalizeL (l : List Char) : List Char :=
  stripWww ((((pySplitSSLast (pyStrip l)).takeWhile
    (fun c => c != '/')).takeWhile (fun c => c != ':')).map Char.toLower)

/-- `normalize_domain(raw)` from `scripts/discover.py`. The Python
`(raw or "")` coalescing of `None` is invisible here because the embedded
input is always a string. -/
def normalize_domain (raw : String) : String :=
  ⟨normalizeL raw.data⟩

/-! ## `unique_sorted` (scripts/discover.py, lines 77–78)

`sorted({normalize_domain(d) for d in domains if normalize_domain(d)})`:
the strictly increasing enumeration of the distinct non-empty
normalizations, built here by sorted insertion without duplicates. -/

/-- Python string comparison `x < y`: lexicographic over code points. -/
def pyStrLtL : List Char → List Char → Bool
  | [], [] => false
  | [], _ :: _ => true
  | _ :: _, [] => false
  | a :: as, b :: bs =>
    if a.toNat < b.toNat then true
    else if b.toNat < a.toNat then false
    else pyStrLtL as bs

/-- Python string comparison `x < y` on embedded strings. -/
def pyStrLt (x y : String) : Bool :=
  pyStrLtL x.data y.data

/-- Insert a string into a strictly sorted list, keeping it strictly
sorted (set insertion). -/
def insertSortedStr (x : String) : List String → List String
  | [] => [x]
  | y :: ys =>
    if x = y then y :: ys
    else if pyStrLt x y then x :: y :: ys
    else y :: insertSortedStr x ys

/-- `unique_sorted(domains)` from `scripts/discover.py`: the sorted set of
non-empty normalizations of the inputs. -/
def unique_sorted (domains : List String) : List String :=
  ((domains.map normalize_domain).filter (fun d => d != "")).foldl
    (fun acc d => insertSortedStr d acc) []

/-! ## `backoff_delays` (scripts/discover.py, lines 108–115) -/

/-- The loop of `backoff_delays`: append `cur`, then
`cur = min(max_s, cur * 2.0)`. -/
def backoffGo (maxS : ℚ) : ℕ → ℚ → List ℚ
  | 0, _ => []
  | Nat.succ n, cur => cur :: backoffGo maxS n (min maxS (cur * 2))

/-- `backoff_delays(base, max_s, attempts)` from `scripts/discover.py`:
`max(0, attempts - 1)` delays starting at `base`, doubling and capping
at `max_s` from the second term on. (`ℕ` subtraction is the
`max(0, attempts - 1)` of the source.) -/
def backoff_delays (base maxS : ℚ) (attempts : ℕ) : List ℚ :=
  backoffGo maxS (attempts - 1) base

/-! ## `GoogleCSEProvider.query` (scripts/discover.py, lines 170–269)

The HTTP layer is an oracle: each `requests.get` consumes the next
scripted `Resp`. A `200` response carries the list of `link` /
`formattedUrl` values already extracted from its `items` array; `429`,
`503`, `requests.Timeout`, `requests.ConnectionError` and
`socket.timeout` all take the same retry branch and are merged into
`Resp.retryable`; any other status code is `Resp.fatal`; any other
exception is `Resp.exn`. -/

inductive Resp
  | ok (links : List String)
  | retryable (code : ℕ)
  | fatal (code : ℕ)
  | exn (msg : String)
deriving DecidableEq

/-- The inner retry loop of `GoogleCSEProvider.query` for one page.
`attempt0` is the Python `attempt - 1`. Each iteration consumes one
scripted response; a scripted list that runs dry ends the page with what
was collected (the loop itself only ends through one of its `break`s or
by retrying). Returns the accumulated results and the unconsumed
responses. On a retryable failure the index
`idx = min(attempt - 1, len(delays) - 1)` is checked exactly as in the
source: retry when `0 ≤ idx < len(delays)`, otherwise give up. -/
def googlePage (delays : List ℚ) : List Resp → ℕ → List String → List String × List Resp
  | [], _, acc => (acc, [])
  | r :: rest, attempt0, acc =>
    match r with
    | .ok links => (acc ++ links, rest)
    | .retryable _ =>
      let idx : ℤ := min (attempt0 : ℤ) ((delays.length : ℤ) - 1)
      if 0 ≤ idx ∧ idx < (delays.length : ℤ) then googlePage delays rest (attempt0 + 1) acc
      else (acc, rest)
    | .fatal _ => (acc, rest)
    | .exn _ => (acc, rest)

/-- The outer pagination loop of `GoogleCSEProvider.query`:
`while len(results) < max_results and start_index <= 91`, with
`start_index` stepping `1, 11, …, 91` — i.e. at most ten pages, embedded
as fuel `10`. -/
def googlePages (delays : List ℚ) : ℕ → List Resp → List String → ℕ → List String
  | 0, _, acc, _ => acc
  | Nat.succ fuel, resps, acc, maxResults =>
    if acc.length < maxResults then
      let p := googlePage delays resps 0 acc
      if maxResults ≤ p.1.length then p.1
      else googlePages delays fuel p.2 p.1 maxResults
    else acc

/-- `GoogleCSEProvider.query(keyword, max_results)`, as a function of the
provider's mutable counter `count` (`queries_made`) and its
configuration. Returns the result list and the new counter. Mirrors the
source paths: over quota → `[]` without increment; missing credentials →
`[]` with increment; otherwise run the paginated retry loops, truncate to
`max_results`, and increment once. -/
def googleQuery (hasCreds : Bool) (count threshold retryAttempts : ℕ)
    (base maxS : ℚ) (resps : List Resp) (maxResults : ℕ) : List String × ℕ :=
  if ¬ count < threshold then ([], count)
  else if ¬ hasCreds then ([], count + 1)
  else
    let delays := backoff_delays base maxS retryAttempts
    ((googlePages delays 10 resps [] maxResults).take maxResults, count + 1)

/-- One scripted `GoogleCSEProvider.query` call: credential presence, the
scripted responses, and `max_results`. -/
structure GCall where
  hasCreds : Bool
  resps : List Resp
  maxResults : ℕ

/-- The counter left by a sequence of `GoogleCSEProvider.query` calls on
a fresh provider (`queries_made = 0` from `BaseProvider.__init__`). -/
def googleRunCount (threshold retryAttempts : ℕ) (base maxS : ℚ)
    (calls : List GCall) : ℕ :=
  calls.foldl
    (fun c call =>
      (googleQuery call.hasCreds c threshold retryAttempts base maxS
        call.resps call.maxResults).2) 0

/-! ## `DuckDuckGoProvider.query` (scripts/discover.py, lines 292–343)

The `ddgs` dependency is an oracle: each `with DDGS() as ddgs: for r in
ddgs.text(...)` attempt either yields a list of extracted `href` /
`link` / `url` values and completes, or yields a prefix of them and then
raises. -/

inductive DdgAttempt
  | ok (urls : List String)
  | failsAfter (urls : List String) (msg : String)
deriving DecidableEq

/-- The retry loop of `DuckDuckGoProvider.query`. `attempt` is the Python
`attempt` (starting at 1). The accumulated `results` list is shared
across attempts — a failed attempt's partial URLs stay in it. On an
exception: retry while `attempt <= len(delays)`, else give up with what
was collected. -/
def ddgLoop (delays : List ℚ) : List DdgAttempt → ℕ → List String → List String
  | [], _, acc => acc
  | a :: rest, attempt, acc =>
    match a with
    | .ok urls => acc ++ urls
    | .failsAfter urls _ =>
      if attempt ≤ delays.length then ddgLoop delays rest (attempt + 1) (acc ++ urls)
      else acc ++ urls

/-- `DuckDuckGoProvider.query(keyword, max_results)`, as a function of the
counter and configuration. Mirrors the source paths: over quota → `[]`
without increment; `ddgs` import unavailable → `[]` with increment;
otherwise run the retry loop, truncate to `max_results`, increment once. -/
def ddgQuery (ddgsAvailable : Bool) (count threshold retryAttempts : ℕ)
    (base maxS : ℚ) (attempts : List DdgAttempt) (maxResults : ℕ) :
    List String × ℕ :=
  if ¬ count < threshold then ([], count)
  else if ¬ ddgsAvailable then ([], count + 1)
  else
    let delays := backoff_delays base maxS retryAttempts
    ((ddgLoop delays attempts 1 []).take maxResults, count + 1)

/-- One scripted `DuckDuckGoProvider.query` call. -/
structure DCall where
  ddgsAvailable : Bool
  attempts : List DdgAttempt
  maxResults : ℕ

/-- The counter left by a sequence of `DuckDuckGoProvider.query` calls on
a fresh provider. -/
def ddgRunCount (threshold retryAttempts : ℕ) (base maxS : ℚ)
    (calls : List DCall) : ℕ :=
  calls.foldl
    (fun c call =>
      (ddgQuery call.ddgsAvailable c threshold retryAttempts base maxS
        call.attempts call.maxResults).2) 0

/-! ## Process world (scripts/run_parallel.py)

Processes are a flat table of entries with a pid, a parent pid, an alive
flag, and a flag saying whether the process exits voluntarily within the
grace period after a graceful `terminate()`. `psutil` actions become pure
updates of this table. -/

structure Proc where
  pid : ℕ
  parent : ℕ
  alive : Bool
  exitsOnTerm : Bool
deriving DecidableEq

/-- The process table. -/
abbrev ProcWorld := List Proc

/-- Pids of the direct children of `pid`. -/
def childrenOf (w : ProcWorld) (pid : ℕ) : List ℕ :=
  (w.filter (fun p => p.parent = pid)).map (fun p => p.pid)

/-- One breadth-first expansion step over direct children. -/
def descStep (w : ProcWorld) (frontier : List ℕ) : List ℕ :=
  frontier.flatMap (childrenOf w)

/-- Breadth-first descendant enumeration with fuel. -/
def descAux (w : ProcWorld) : ℕ → List ℕ → List ℕ
  | 0, _ => []
  | Nat.succ n, frontier =>
    let next := descStep w frontier
    next ++ descAux w n next

/-- `parent.children(recursive=True)`: all descendants of `pid`. Fuel
`w.length` suffices for any acyclic table. -/
def descendants (w : ProcWorld) (pid : ℕ) : List ℕ :=
  descAux w w.length [pid]

/-- Send `terminate()` to each listed pid and wait out the grace period:
processes that respond to the graceful signal exit; stragglers stay
alive. -/
def terminateProcs (w : ProcWorld) (pids : List ℕ) : ProcWorld :=
  w.map (fun p =>
    if p.pid ∈ pids ∧ p.exitsOnTerm then { p with alive := false } else p)

/-- Send `kill()` to each listed pid: unconditional death. -/
def killProcs (w : ProcWorld) (pids : List ℕ) : ProcWorld :=
  w.map (fun p => if p.pid ∈ pids then { p with alive := false } else p)

/-- `kill_chrome_tree(parent_pid)` from `scripts/run_parallel.py`, lines
33–66: look the parent up (`psutil.NoSuchProcess` when absent leaves the
world unchanged); terminate all descendants, wait the grace period, kill
the stragglers; then terminate the parent, wait, and kill it if it
survived. -/
def kill_chrome_tree (w : ProcWorld) (pid : ℕ) : ProcWorld :=
  if w.all (fun p => p.pid ≠ pid) then w
  else
    let kids := descendants w pid
    let w1 := terminateProcs w kids
    let w2 := killProcs w1 kids
    let w3 := terminateProcs w2 [pid]
    killProcs w3 [pid]

/-! ## `run_lighthouse` (scripts/run_parallel.py, lines 79–148) -/

/-- The per-domain result dict `{"url": ..., "success": ..., "error": ...}`. -/
structure Outcome where
  url : String
  success : Bool
  error : Option String
deriving DecidableEq

/-- What `proc.communicate(timeout=60)` does after a successful launch:
natural completion with a return code and stderr text, a
`subprocess.TimeoutExpired`, or some other exception. -/
inductive WaitResult
  | completed (rc : ℤ) (stderrText : String)
  | timedOut
  | excDuring (msg : String)
deriving DecidableEq

/-- What `subprocess.Popen` does: raise before a process exists, or
launch a process with the given pid whose wait then behaves as `wr`. -/
inductive LaunchResult
  | launchFails (msg : String)
  | launched (pid : ℕ) (wr : WaitResult)
deriving DecidableEq

/-- `run_lighthouse(url)` as a function of the launch/wait oracle, the
live-process registry `CHROME_PIDS`, and the process world. Mirrors the
source paths: on launch, the pid enters the registry; on natural
completion the tree is killed and the pid discarded, with
`success = (returncode == 0)` and on failure the first 200 characters of
stderr; on `TimeoutExpired` the tree is killed, the pid discarded, and
the outcome is `"Timeout after 60s"`; on any other exception during the
wait the tree is killed, the pid discarded, and the outcome carries the
truncated exception text; an exception from `Popen` itself leaves the
registry untouched (`proc` is `None`). -/
def run_lighthouse (url : String) (lr : LaunchResult) (reg : Finset ℕ)
    (w : ProcWorld) : Outcome × Finset ℕ × ProcWorld :=
  match lr with
  | .launchFails msg => (⟨url, false, some (strTake msg 200)⟩, reg, w)
  | .launched pid wr =>
    let reg1 := insert pid reg
    match wr with
    | .completed rc stderrText =>
      let w2 := kill_chrome_tree w pid
      let reg2 := reg1.erase pid
      if rc = 0 then (⟨url, true, none⟩, reg2, w2)
      else (⟨url, false, some (strTake stderrText 200)⟩, reg2, w2)
    | .timedOut =>
      (⟨url, false, some "Timeout after 60s"⟩, reg1.erase pid, kill_chrome_tree w pid)
    | .excDuring msg =>
      (⟨url, false, some (strTake msg 200)⟩, reg1.erase pid, kill_chrome_tree w pid)

/-! ## Ordering of `main` in scripts/discover.py (lines 351–411)

Only the order of effects matters for the output-directory pre-check
claim, so `main` is embedded as the trace of its externally visible
effects: one `query` event per keyword × provider from the loop at lines
381–392 (the quota-skip branch can suppress a query but never reorders
anything), then — unless `--dry-run` — the `mkdir(parents=True,
exist_ok=True)` of the output directory and the write of each domain
line (lines 394–399). The accumulated `all_domains` set united from
per-call `unique_sorted` results and then sorted is exactly
`unique_sorted` of the concatenation of all raw results. -/

inductive Event
  | queryEvent (kw prov : String)
  | mkdirOutput
  | writeDomain (d : String)
deriving DecidableEq

/-- The effect trace of `main`, over a results oracle giving what each
provider returns for each keyword. -/
def mainTrace (keywords provs : List String)
    (results : String → String → List String) (dryRun : Bool) : List Event :=
  let queries := keywords.flatMap (fun kw => provs.map (fun p => Event.queryEvent kw p))
  let domains := unique_sorted (keywords.flatMap (fun kw => provs.flatMap (fun p => results kw p)))
  queries ++ if dryRun then [] else Event.mkdirOutput :: domains.map Event.writeDomain


/-! ## Character-level lemmas -/

/-- `(Char.ofNat n).toNat = n` for every valid code point `n`. -/
theorem charToNat_ofNat_valid (n : Nat) (h : n.isValidChar) :
    (Char.ofNat n).toNat = n := by
  simp [Char.ofNat, h, Char.ofNatAux, Char.toNat, UInt32.toNat, BitVec.toNat_ofNatLt]

/-- ASCII lower-casing (`str.lower`) is idempotent on characters. -/
theorem toLower_toLower (c : Char) : c.toLower.toLower = c.toLower := by
  unfold Char.toLower
  by_cases h : c.toNat ≥ 65 ∧ c.toNat ≤ 90
  · rw [if_pos h]
    have hv : (c.toNat + 32).isValidChar := Or.inl (by omega)
    rw [charToNat_ofNat_valid _ hv, if_neg (by omega)]
  · rw [if_neg h, if_neg h]

/-- Lower-casing can only produce a character of code point `< 97` if the
input already was that character. -/
theorem toLower_eq_of_lt (c d : Char) (hd : d.toNat < 97) (h : c.toLower = d) :
    c = d := by
  unfold Char.toLower at h
  by_cases hc : c.toNat ≥ 65 ∧ c.toNat ≤ 90
  · exfalso
    rw [if_pos hc] at h
    have h2 := congrArg Char.toNat h
    rw [charToNat_ofNat_valid _ (Or.inl (by omega))] at h2
    omega
  · rwa [if_neg hc] at h

/-- Lower-casing a list twice is lower-casing it once. -/
theorem map_toLower_idem (w : List Char) :
    (w.map Char.toLower).map Char.toLower = w.map Char.toLower := by
  induction w with
  | nil => rfl
  | cons a as ih => simp [toLower_toLower, ih]

/-! ## Structural lemmas about `normalize_domain` -/

/-- `takeWhile` is the identity on a list all of whose elements satisfy
the predicate. -/
theorem takeWhile_eq_self_of_all {α : Type} {p : α → Bool} (l : List α)
    (h : ∀ c ∈ l, p c = true) : l.takeWhile p = l := by
  induction l with
  | nil => rfl
  | cons a as ih =>
    rw [List.takeWhile_cons_of_pos (h a (List.mem_cons_self a as))]
    rw [ih (fun c hc => h c (List.mem_cons_of_mem a hc))]

/-- A slash-free string contains no `"//"`. -/
theorem dropThroughSS_eq_none (l : List Char) (h : ∀ c ∈ l, c ≠ '/') :
    dropThroughSS l = none := by
  induction l with
  | nil => rfl
  | cons c rest ih =>
    rw [dropThroughSS, if_neg]
    · exact ih fun d hd => h d (List.mem_cons_of_mem c hd)
    · intro hcc
      exact h c (List.mem_cons_self c rest) hcc.1

/-- Members of `takeWhile p l` satisfy `p`. -/
theorem mem_takeWhile_pred {α : Type} {p : α → Bool} {l : List α} {a : α}
    (h : a ∈ l.takeWhile p) : p a = true := by
  induction l with
  | nil => exact absurd h (List.not_mem_nil a)
  | cons b bs ih =>
    rw [List.takeWhile_cons] at h
    split at h
    · rcases List.mem_cons.mp h with rfl | h2
      · assumption
      · exact ih h2
    · exact absurd h (List.not_mem_nil a)

/-- Every character of a normalized domain differs from `'/'` and `':'`:
the host/port truncations remove them and later steps add none. -/
theorem mem_normalizeL (l : List Char) (c : Char) (hc : c ∈ normalizeL l) :
    c ≠ '/' ∧ c ≠ ':' := by
  unfold normalizeL stripWww at hc
  have hd5 : c ∈ (((pySplitSSLast (pyStrip l)).takeWhile
      (fun c => c != '/')).takeWhile (fun c => c != ':')).map Char.toLower := by
    split at hc
    · exact List.drop_subset _ _ hc
    · exact hc
  obtain ⟨c', hc', rfl⟩ := List.mem_map.mp hd5
  have h2 : c' ∈ (pySplitSSLast (pyStrip l)).takeWhile (fun c => c != '/') :=
    (List.takeWhile_sublist _).subset hc'
  have hslash := mem_takeWhile_pred h2
  have hcolon := mem_takeWhile_pred hc'
  simp only [bne_iff_ne, ne_eq] at hslash hcolon
  constructor
  · intro he
    exact hslash (toLower_eq_of_lt _ _ (by decide) he)
  · intro he
    exact hcolon (toLower_eq_of_lt _ _ (by decide) he)

/-- A normalized domain is already lower-case. -/
theorem map_toLower_normalizeL (l : List Char) :
    (normalizeL l).map Char.toLower = normalizeL l := by
  unfold normalizeL stripWww
  split
  · rw [List.map_drop, map_toLower_idem]
  · exact map_toLower_idem _

/-- The fixpoint property behind idempotence: re-normalizing a normalized
domain changes nothing, provided the normalized form carries no
leading/trailing whitespace and does not itself start with `"www."`. -/
theorem normalizeL_fix (l : List Char)
    (h1 : pyStrip (normalizeL l) = normalizeL l)
    (h2 : (normalizeL l).take 4 ≠ ['w', 'w', 'w', '.']) :
    normalizeL (normalizeL l) = normalizeL l := by
  have hss : dropThroughSS (normalizeL l) = none :=
    dropThroughSS_eq_none _ (fun c hc => (mem_normalizeL l c hc).1)
  nth_rewrite 1 [normalizeL]
  rw [h1, pySplitSSLast, hss, Option.getD_none]
  rw [takeWhile_eq_self_of_all (normalizeL l) (fun c hc => by
    simp only [bne_iff_ne, ne_eq]
    exact (mem_normalizeL l c hc).1)]
  rw [takeWhile_eq_self_of_all (normalizeL l) (fun c hc => by
    simp only [bne_iff_ne, ne_eq]
    exact (mem_normalizeL l c hc).2)]
  rw [map_toLower_normalizeL, stripWww, if_neg h2]

/-! ## Claim C3 — idempotence of `normalize_domain` -/

/-- C3 counterexample: `normalize_domain` is NOT idempotent. Each call
strips at most one leading `"www."`, so a doubled prefix survives the
first normalization and is removed again by the second:
`normalize_domain "www.www.example.com" = "www.example.com"` but
normalizing once more yields `"example.com"`. -/
theorem C3_normalize_not_idempotent :
    normalize_domain (normalize_domain "www.www.example.com") ≠
      normalize_domain "www.www.example.com" := by decide

/-- C3 (amended): `normalize_domain` is idempotent on every input whose
normalization neither starts with `"www."` nor carries leading/trailing
whitespace (whitespace can survive normalization, e.g.
`normalize_domain "x// y" = " y"`, and is then stripped by the second
pass). -/
theorem C3_normalize_idempotent_amended (s : String)
    (h1 : pyStrip (normalize_domain s).data = (normalize_domain s).data)
    (h2 : (normalize_domain s).data.take 4 ≠ ['w', 'w', 'w', '.']) :
    normalize_domain (normalize_domain s) = normalize_domain s := by
  show (⟨normalizeL (normalizeL s.data)⟩ : String) = ⟨normalizeL s.data⟩
  rw [normalizeL_fix s.data h1 h2]

/-- Witness for the amended C3 at the concrete input `"a.com"`. -/
theorem C3_normalize_idempotent_amended_witness :
    pyStrip (normalize_domain "a.com").data = (normalize_domain "a.com").data ∧
    (normalize_domain "a.com").data.take 4 ≠ ['w', 'w', 'w', '.'] ∧
    normalize_domain (normalize_domain "a.com") = normalize_domain "a.com" :=
  ⟨by decide, by decide,
    C3_normalize_idempotent_amended "a.com" (by decide) (by decide)⟩

/-! ## Claim C9 — `normalize_domain` concrete behaviour -/

/-- C9: `normalize_domain` strips the scheme at the first `"//"`,
truncates at the first `'/'` and first `':'`, lower-cases, and strips one
leading `"www."`; it is a total function (never raises) and on the spec's
examples gives `normalize("https://WWW.Example.COM:443/path") =
"example.com"` and `normalize("") = ""`. -/
theorem C9_normalize_examples :
    normalize_domain "https://WWW.Example.COM:443/path" = "example.com" ∧
    normalize_domain "" = "" :=
  ⟨by decide, by decide⟩

/-! ## Claim C4 — `unique_sorted` and domain validity -/

/-- C4 (code bug evidence): `unique_sorted` performs NO validity
filtering — the source is exactly
`sorted({normalize_domain(d) for d in domains if normalize_domain(d)})`,
which drops only empty normalizations. On the repository's own test
input (`tests/test_discover.py`, the redacted
`unique_sorted`-filters-invalid test, which expects
`["also-valid.org", "valid.com"]` and imports an `is_valid_domain`
function that does not exist in `scripts/discover.py`), the code keeps
`localhost`, the literal IPv4 address and the dotless bare word. -/
theorem C4_unique_sorted_keeps_invalid :
    unique_sorted ["https://valid.com", "https://localhost",
        "http://127.0.0.1", "invalid", "also-valid.org"] =
      ["127.0.0.1", "also-valid.org", "invalid", "localhost", "valid.com"] := by
  decide

/-! ## Claim C5 — `backoff_delays` -/

/-- The cap recurrence collapses to a capped geometric closed form. -/
theorem min_double_step (cur maxS : ℚ) (h : cur ≤ maxS) (i : ℕ) :
    min maxS (min maxS (cur * 2) * 2 ^ i) = min maxS (cur * 2 ^ (i + 1)) := by
  rcases le_or_lt (cur * 2) maxS with hle | hlt
  · rw [min_eq_right hle]
    have he : cur * 2 * 2 ^ i = cur * 2 ^ (i + 1) := by ring
    rw [he]
  · have hc : 0 < cur := by linarith
    have hm : 0 < maxS := by linarith
    have h2i : (1 : ℚ) ≤ 2 ^ i := one_le_pow₀ (by norm_num)
    have h2in : (0 : ℚ) ≤ 2 ^ i := by positivity
    have h1 : maxS ≤ maxS * 2 ^ i := le_mul_of_one_le_right hm.le h2i
    have h2 : maxS ≤ cur * 2 ^ (i + 1) := by
      have hstep : maxS * 2 ^ i ≤ cur * 2 * 2 ^ i :=
        mul_le_mul_of_nonneg_right hlt.le h2in
      have he : cur * 2 * 2 ^ i = cur * 2 ^ (i + 1) := by ring
      linarith [he ▸ hstep]
    rw [min_eq_left hlt.le, min_eq_left h1, min_eq_left h2]

/-- Length of the backoff loop output. -/
theorem backoffGo_length (maxS : ℚ) :
    ∀ (n : ℕ) (cur : ℚ), (backoffGo maxS n cur).length = n := by
  intro n
  induction n with
  | zero => intro cur; rfl
  | succ n ih =>
    intro cur
    rw [backoffGo, List.length_cons, ih]

/-- Entries of the backoff loop output, when the current value is under
the cap: a geometric sequence capped at `maxS`. -/
theorem backoffGo_getElem? (maxS : ℚ) :
    ∀ (n i : ℕ) (cur : ℚ), cur ≤ maxS → i < n →
      (backoffGo maxS n cur)[i]? = some (min maxS (cur * 2 ^ i)) := by
  intro n
  induction n with
  | zero => intro i cur _ hi; exact absurd hi (Nat.not_lt_zero i)
  | succ n ih =>
    intro i cur hcur hi
    cases i with
    | zero =>
      rw [backoffGo, List.getElem?_cons_zero, pow_zero, mul_one, min_eq_right hcur]
    | succ i =>
      rw [backoffGo, List.getElem?_cons_succ]
      rw [ih i (min maxS (cur * 2)) (min_le_left _ _) (Nat.lt_of_succ_lt_succ hi)]
      rw [min_double_step cur maxS hcur i]

/-- C5 counterexample: the FIRST delay is never capped. With
`base = 3 > max = 1` the code returns `[3]`, while the claimed
term-by-term cap `min(max, base * 2^i)` would give `[1]`. -/
theorem C5_backoff_first_term_uncapped :
    backoff_delays 3 1 2 = [3] ∧
    (backoff_delays 3 1 2)[0]? ≠ some (min (1 : ℚ) (3 * 2 ^ 0)) := by
  constructor
  · rfl
  · intro h
    rw [show (backoff_delays 3 1 2)[0]? = some 3 from rfl] at h
    have h3 : (3 : ℚ) = min 1 (3 * 2 ^ 0) := Option.some_injective _ h
    norm_num [min_def] at h3

/-- C5 (amended): `backoff_delays(base, max, attempts)` has length
`max(attempts - 1, 0)`; its first term is `base` itself (uncapped), each
later term doubles the previous and is capped at `max`; whenever
`base ≤ max` this equals the capped geometric sequence
`min(max, base * 2^i)`, and the spec's example
`backoff_delays(0.5, 2.0, 3) = [0.5, 1.0]` holds. -/
theorem C5_backoff_amended :
    (∀ (base maxS : ℚ) (attempts : ℕ),
      (backoff_delays base maxS attempts).length = attempts - 1) ∧
    (∀ (base maxS : ℚ) (attempts i : ℕ), base ≤ maxS → i < attempts - 1 →
      (backoff_delays base maxS attempts)[i]? = some (min maxS (base * 2 ^ i))) ∧
    backoff_delays (1/2) 2 3 = [1/2, 1] := by
  refine ⟨fun base maxS attempts => backoffGo_length maxS _ base,
    fun base maxS attempts i hb hi => backoffGo_getElem? maxS _ i base hb hi, ?_⟩
  norm_num [backoff_delays, backoffGo, min_def]

/-- Witness for the amended C5 at the spec's concrete input. -/
theorem C5_backoff_amended_witness :
    ((1 : ℚ)/2 ≤ 2) ∧ (0 : ℕ) < 3 - 1 ∧
    (backoff_delays (1/2) 2 3)[0]? = some (min 2 ((1/2) * 2 ^ 0)) :=
  ⟨by norm_num, by norm_num,
    C5_backoff_amended.2.1 (1/2) 2 3 0 (by norm_num) (by norm_num)⟩

/-! ## Provider counter lemmas -/

/-- The counter left by one `GoogleCSEProvider.query` call: `+1` exactly
when the provider was under quota (every under-quota path — missing
credentials, retries, fatal statuses — ends in `self.queries_made += 1`),
unchanged otherwise. -/
theorem googleQuery_count (hasCreds : Bool) (count threshold retryAttempts : ℕ)
    (base maxS : ℚ) (resps : List Resp) (maxResults : ℕ) :
    (googleQuery hasCreds count threshold retryAttempts base maxS resps maxResults).2 =
      if count < threshold then count + 1 else count := by
  unfold googleQuery
  split_ifs with h1 h2 <;> simp_all

/-- The counter left by one `DuckDuckGoProvider.query` call. -/
theorem ddgQuery_count (ddgsAvailable : Bool) (count threshold retryAttempts : ℕ)
    (base maxS : ℚ) (attempts : List DdgAttempt) (maxResults : ℕ) :
    (ddgQuery ddgsAvailable count threshold retryAttempts base maxS attempts maxResults).2 =
      if count < threshold then count + 1 else count := by
  unfold ddgQuery
  split_ifs with h1 h2 <;> simp_all

/-- Folding `GoogleCSEProvider.query` calls never pushes the counter past
the threshold. -/
theorem googleFold_le (threshold retryAttempts : ℕ) (base maxS : ℚ) :
    ∀ (calls : List GCall) (c : ℕ), c ≤ threshold →
      calls.foldl
        (fun c call =>
          (googleQuery call.hasCreds c threshold retryAttempts base maxS
            call.resps call.maxResults).2) c ≤ threshold := by
  intro calls
  induction calls with
  | nil => intro c hc; exact hc
  | cons call rest ih =>
    intro c hc
    rw [List.foldl_cons]
    apply ih
    rw [googleQuery_count]
    split_ifs with h
    · omega
    · exact hc

/-- Folding `DuckDuckGoProvider.query` calls never pushes the counter
past the threshold. -/
theorem ddgFold_le (threshold retryAttempts : ℕ) (base maxS : ℚ) :
    ∀ (calls : List DCall) (c : ℕ), c ≤ threshold →
      calls.foldl
        (fun c call =>
          (ddgQuery call.ddgsAvailable c threshold retryAttempts base maxS
            call.attempts call.maxResults).2) c ≤ threshold := by
  intro calls
  induction calls with
  | nil => intro c hc; exact hc
  | cons call rest ih =>
    intro c hc
    rw [List.foldl_cons]
    apply ih
    rw [ddgQuery_count]
    split_ifs with h
    · omega
    · exact hc

/-! ## Claim C6 — the quota is a hard ceiling -/

/-- C6: with `daily_quota_threshold = 1`, the first `query` call leaves
the counter at 1 (whatever the network does); a second call before any
reset returns `[]` and leaves the counter at 1; and in general, for any
threshold and any sequence of calls on a fresh provider, `queries_made`
never exceeds `daily_quota_threshold` — for either provider. -/
theorem C6_quota_hard_ceiling :
    (∀ (hasCreds : Bool) (retryAttempts maxResults : ℕ) (base maxS : ℚ)
        (resps : List Resp),
      (googleQuery hasCreds 0 1 retryAttempts base maxS resps maxResults).2 = 1) ∧
    (∀ (hasCreds : Bool) (retryAttempts maxResults : ℕ) (base maxS : ℚ)
        (resps : List Resp),
      googleQuery hasCreds 1 1 retryAttempts base maxS resps maxResults = ([], 1)) ∧
    (∀ (threshold retryAttempts : ℕ) (base maxS : ℚ) (calls : List GCall),
      googleRunCount threshold retryAttempts base maxS calls ≤ threshold) ∧
    (∀ (threshold retryAttempts : ℕ) (base maxS : ℚ) (calls : List DCall),
      ddgRunCount threshold retryAttempts base maxS calls ≤ threshold) := by
  refine ⟨?_, ?_, ?_, ?_⟩
  · intro hasCreds retryAttempts maxResults base maxS resps
    rw [googleQuery_count, if_pos (by omega)]
  · intro hasCreds retryAttempts maxResults base maxS resps
    simp [googleQuery]
  · intro threshold retryAttempts base maxS calls
    exact googleFold_le threshold retryAttempts base maxS calls 0 (Nat.zero_le _)
  · intro threshold retryAttempts base maxS calls
    exact ddgFold_le threshold retryAttempts base maxS calls 0 (Nat.zero_le _)

/-! ## Claim C7 — counter increments once per call -/

/-- C7 counterexample: an over-quota call does NOT increment the counter
(it returns `[]` before `queries_made += 1` is ever reached), so "every
call increments the counter by exactly one" fails: at
`queries_made = daily_quota_threshold = 1` the call leaves the counter at
1, not 2. -/
theorem C7_no_increment_at_quota :
    (googleQuery true 1 1 3 (1/2) 8 [Resp.ok ["https://a.com"]] 5).2 ≠ 1 + 1 := by
  decide

/-- C7 (amended): every *under-quota* call to either provider's `query`
increments that provider's counter by exactly one, regardless of
credentials, success, failure, or number of retries; and a provider that
receives 429, 429, then 200 with retry budget 3 returns the successful
page's results with the counter incremented exactly once. -/
theorem C7_counter_increment_amended :
    (∀ (hasCreds : Bool) (count threshold retryAttempts maxResults : ℕ)
        (base maxS : ℚ) (resps : List Resp), count < threshold →
      (googleQuery hasCreds count threshold retryAttempts base maxS
        resps maxResults).2 = count + 1) ∧
    (∀ (ddgsAvailable : Bool) (count threshold retryAttempts maxResults : ℕ)
        (base maxS : ℚ) (attempts : List DdgAttempt), count < threshold →
      (ddgQuery ddgsAvailable count threshold retryAttempts base maxS
        attempts maxResults).2 = count + 1) ∧
    googleQuery true 0 5 3 (1/2) 8
        [Resp.retryable 429, Resp.retryable 429, Resp.ok ["https://a.com"]] 1 =
      (["https://a.com"], 1) := by
  refine ⟨?_, ?_, by decide⟩
  · intro hasCreds count threshold retryAttempts maxResults base maxS resps h
    rw [googleQuery_count, if_pos h]
  · intro ddgsAvailable count threshold retryAttempts maxResults base maxS attempts h
    rw [ddgQuery_count, if_pos h]

/-- Witness for the amended C7 at a concrete under-quota call. -/
theorem C7_counter_increment_amended_witness :
    (0 : ℕ) < 1 ∧
    (googleQuery true 0 1 3 (1/2) 8 [Resp.ok ["https://a.com"]] 1).2 = 0 + 1 :=
  ⟨by decide,
    C7_counter_increment_amended.1 true 0 1 3 1 (1/2) 8
      [Resp.ok ["https://a.com"]] (by decide)⟩

/-! ## Claim C10 — DDG partial results survive retries -/

/-- C10: `DuckDuckGoProvider.query` never clears its accumulated
`results` list between retry attempts: when the search dependency raises
after yielding `us` and the retry succeeds with `vs` (retry budget
`retry_attempts ≥ 2`, i.e. at least one delay), the call returns
`(us ++ vs).take max_results` — the failed attempt's URLs followed by all
of the successful attempt's, truncated — with one counter increment. -/
theorem C10_ddg_partial_results_kept (us vs : List String) (msg : String)
    (count threshold retryAttempts maxResults : ℕ) (base maxS : ℚ)
    (hq : count < threshold) (hr : 2 ≤ retryAttempts) :
    ddgQuery true count threshold retryAttempts base maxS
        [DdgAttempt.failsAfter us msg, DdgAttempt.ok vs] maxResults =
      ((us ++ vs).take maxResults, count + 1) := by
  unfold ddgQuery
  rw [if_neg (not_not_intro hq), if_neg (by simp)]
  have hlen : 1 ≤ (backoff_delays base maxS retryAttempts).length := by
    rw [backoff_delays, backoffGo_length]
    omega
  simp only [ddgLoop]
  rw [if_pos hlen]
  simp

/-- Witness for C10 at a concrete failed-then-successful pair of
attempts. -/
theorem C10_ddg_partial_results_kept_witness :
    (0 : ℕ) < 1 ∧ (2 : ℕ) ≤ 2 ∧
    ddgQuery true 0 1 2 (1/2) 8
        [DdgAttempt.failsAfter ["https://u.com"] "boom",
         DdgAttempt.ok ["https://v.com"]] 10 =
      ((["https://u.com"] ++ ["https://v.com"]).take 10, 0 + 1) :=
  ⟨by decide, by decide,
    C10_ddg_partial_results_kept ["https://u.com"] ["https://v.com"] "boom"
      0 1 2 10 (1/2) 8 (by decide) (by decide)⟩

/-! ## Claim C2 — `run_lighthouse` cleanup on every exit path -/

/-- C2: on every exit path of `run_lighthouse` in which a process was
launched — natural completion with any return code, timeout, or any other
exception while waiting — the launched pid is absent from the
live-process registry when the function returns; and the timeout path
returns exactly the outcome `success = false`,
`error = "Timeout after 60s"`, with the registry cleared of the pid and
the process world equal to the result of running the launched pid's whole
tree through the graceful-then-forced termination algorithm
`kill_chrome_tree`. (An exception from `Popen` itself leaves `proc =
None`: no pid was launched, none was ever registered.) -/
theorem C2_run_lighthouse_cleanup :
    (∀ (url : String) (reg : Finset ℕ) (w : ProcWorld) (pid : ℕ) (wr : WaitResult),
      pid ∉ (run_lighthouse url (LaunchResult.launched pid wr) reg w).2.1) ∧
    (∀ (url : String) (reg : Finset ℕ) (w : ProcWorld) (pid : ℕ),
      run_lighthouse url (LaunchResult.launched pid WaitResult.timedOut) reg w =
        (⟨url, false, some "Timeout after 60s"⟩, (insert pid reg).erase pid,
          kill_chrome_tree w pid)) := by
  constructor
  · intro url reg w pid wr
    cases wr with
    | completed rc stderrText =>
      simp only [run_lighthouse]
      split_ifs <;> exact Finset.not_mem_erase pid _
    | timedOut => exact Finset.not_mem_erase pid _
    | excDuring msg => exact Finset.not_mem_erase pid _
  · intro url reg w pid
    rfl

/-! ## Claim C8 — output-directory pre-check ordering in `main` -/

/-- C8 (code bug evidence): in `main` of `scripts/discover.py` the whole
keyword × provider discovery loop runs FIRST; the output directory's
`mkdir` and the write open happen only afterwards (lines 394–399), and no
write-permission pre-check exists at all (the `ensure_writable` imported
by `tests/test_integration_discover.py` is absent from the module). In
the effect trace of the smallest run — one keyword, one provider — the
query precedes `mkdirOutput`, so a write failure is raised only after the
discovery work it discards; the second conjunct shows the first effect of
any non-trivial run is a query, never the directory check. -/
theorem C8_work_precedes_output_check :
    mainTrace ["kw"] ["google_cse"] (fun _ _ => ["https://d.com"]) false =
      [Event.queryEvent "kw" "google_cse", Event.mkdirOutput,
        Event.writeDomain "d.com"] ∧
    (∀ (kw p : String) (kws ps : List String)
        (results : String → String → List String) (dryRun : Bool),
      (mainTrace (kw :: kws) (p :: ps) results dryRun).head? =
        some (Event.queryEvent kw p)) := by
  constructor
  · decide
  · intro kw p kws ps results dryRun
    simp [mainTrace]
